import Mathlib

/-!
Verification of the market-simulation and trading core of the
`astrbot_plugin_stockgame` repository (src/main.py) against its
natural-language specification.

The Python code is shallowly embedded as follows.

* Python floats (prices, impacts, cash) are modelled as rationals (`ℚ`);
  Python ints (share counts, remaining ticks) as `Int` or `Nat`.
* Python dicts are modelled as association lists: `assocLookup` embeds
  `dict.get(key)`, `assocSet` embeds `dict[key] = value`, `assocErase`
  embeds `del dict[key]`.  Dicts have unique keys, so theorems that need
  it carry a `Nodup` hypothesis on the key list.
* The random draws inside `market_ticker` and `calculate_new_price`
  (`random.uniform`, `random.random`, `random.choice`) are passed in as
  explicit parameters: a drift value per stock code, and an `Option`
  that carries the sampled event exactly when the probability check fired.
-/

namespace StockGame

/-- Association-list lookup: the embedding of Python `dict.get(key)`. -/
def assocLookup {β : Type} : List (String × β) → String → Option β
  | [], _ => none
  | (k, v) :: rest, c => if k = c then some v else assocLookup rest c

/-- Association-list update: the embedding of Python `dict[key] = value`
(updates the existing entry in place, otherwise appends a new one,
matching insertion-ordered Python dicts). -/
def assocSet {β : Type} : List (String × β) → String → β → List (String × β)
  | [], c, v => [(c, v)]
  | (k, w) :: rest, c, v =>
      if k = c then (c, v) :: rest else (k, w) :: assocSet rest c v

/-- Association-list removal: the embedding of Python `del dict[key]`. -/
def assocErase {β : Type} : List (String × β) → String → List (String × β)
  | [], _ => []
  | (k, w) :: rest, c => if k = c then rest else (k, w) :: assocErase rest c

theorem assocLookup_set_self {β : Type} (l : List (String × β)) (c : String) (v : β) :
    assocLookup (assocSet l c v) c = some v := by
  induction l with
  | nil => simp [assocSet, assocLookup]
  | cons kw rest ih =>
      obtain ⟨k, w⟩ := kw
      by_cases h : k = c
      · simp [assocSet, assocLookup, h]
      · simp [assocSet, assocLookup, h, ih]

theorem assocLookup_set_ne {β : Type} (l : List (String × β)) (c c' : String) (v : β)
    (h : c' ≠ c) : assocLookup (assocSet l c v) c' = assocLookup l c' := by
  induction l with
  | nil => simp [assocSet, assocLookup, Ne.symm h]
  | cons kw rest ih =>
      obtain ⟨k, w⟩ := kw
      by_cases hk : k = c
      · subst hk
        simp [assocSet, assocLookup, Ne.symm h]
      · simp only [assocSet, if_neg hk]
        by_cases hk' : k = c'
        · simp [assocLookup, hk']
        · simp [assocLookup, hk', ih]

theorem assocLookup_erase_ne {β : Type} (l : List (String × β)) (c c' : String)
    (h : c' ≠ c) : assocLookup (assocErase l c) c' = assocLookup l c' := by
  induction l with
  | nil => simp [assocErase]
  | cons kw rest ih =>
      obtain ⟨k, w⟩ := kw
      by_cases hk : k = c
      · subst hk
        simp [assocErase, assocLookup, Ne.symm h]
      · simp only [assocErase, if_neg hk]
        by_cases hk' : k = c'
        · simp [assocLookup, hk']
        · simp [assocLookup, hk', ih]

theorem assocLookup_eq_none {β : Type} (l : List (String × β)) (c : String)
    (h : c ∉ l.map Prod.fst) : assocLookup l c = none := by
  induction l with
  | nil => rfl
  | cons kw rest ih =>
      obtain ⟨k, w⟩ := kw
      simp only [List.map_cons, List.mem_cons, not_or] at h
      simp [assocLookup, Ne.symm h.1, ih h.2]

theorem assocLookup_erase_self {β : Type} (l : List (String × β)) (c : String)
    (h : (l.map Prod.fst).Nodup) : assocLookup (assocErase l c) c = none := by
  induction l with
  | nil => rfl
  | cons kw rest ih =>
      obtain ⟨k, w⟩ := kw
      simp only [List.map_cons, List.nodup_cons] at h
      by_cases hk : k = c
      · subst hk
        simp [assocErase, assocLookup_eq_none rest k h.1]
      · simp [assocErase, assocLookup, hk, ih h.2]

theorem mem_keys_assocSet {β : Type} (l : List (String × β)) (c : String) (v : β)
    (x : String) :
    x ∈ (assocSet l c v).map Prod.fst ↔ x ∈ l.map Prod.fst ∨ x = c := by
  induction l with
  | nil => simp [assocSet]
  | cons kw rest ih =>
      obtain ⟨k, w⟩ := kw
      by_cases hk : k = c
      · subst hk
        simp only [assocSet, if_true, eq_self_iff_true, List.map_cons, List.mem_cons]
        tauto
      · simp only [assocSet, if_neg hk, List.map_cons, List.mem_cons, ih]
        tauto

theorem nodup_keys_assocSet {β : Type} (l : List (String × β)) (c : String) (v : β)
    (h : (l.map Prod.fst).Nodup) : ((assocSet l c v).map Prod.fst).Nodup := by
  induction l with
  | nil => simp [assocSet]
  | cons kw rest ih =>
      obtain ⟨k, w⟩ := kw
      simp only [List.map_cons, List.nodup_cons] at h
      by_cases hk : k = c
      · subst hk
        simpa [assocSet, List.nodup_cons] using h
      · simp only [assocSet, if_neg hk, List.map_cons, List.nodup_cons]
        refine ⟨?_, ih h.2⟩
        rw [mem_keys_assocSet]
        rintro (hmem | rfl)
        · exact h.1 hmem
        · exact hk rfl

/-- A catalog entry of `stocks.json` (keyed by the stock code in the
surrounding association list).  `initial_price` is optional because the
code reads it with `data.get("initial_price", 100.0)`. -/
structure Stock where
  name : String
  industry : String
  tags : List String
  initial_price : Option ℚ
  deriving DecidableEq, Repr

/-- A global event template from `events_global.json`.  `duration_ticks`
is optional because the code reads it with `get("duration_ticks", 1)`. -/
structure GlobalEvent where
  content : String
  affected_industries : List String
  affected_tags : List String
  trend_impact : ℚ
  duration_ticks : Option Nat
  deriving DecidableEq, Repr

/-- An activated global event: the template fields spread together with
`remaining_ticks` and a unique instance id, as built in step 2 of
`market_ticker` (src/main.py 285-289).  `remaining_ticks` is an `Int`
because the Python int is decremented without a lower bound. -/
structure ActiveGlobalEvent where
  content : String
  affected_industries : List String
  affected_tags : List String
  trend_impact : ℚ
  duration_ticks : Option Nat
  remaining_ticks : Int
  uid : String
  deriving DecidableEq, Repr

/-- A local (one-shot) event template from `events_local.json`. -/
structure LocalEvent where
  content : String
  affected_codes : List String
  affected_tags : List String
  direct_impact_percent : ℚ
  deriving DecidableEq, Repr

/-- The industry/tag gate of `calculate_new_price` for one active global
event (src/main.py 360-361): the stock's industry is in the event's
affected industries, or some affected tag is among the stock's tags. -/
def matchesGlobal (stock : Stock) (e : ActiveGlobalEvent) : Bool :=
  e.affected_industries.contains stock.industry ||
    e.affected_tags.any fun t => stock.tags.contains t

/-- The accumulation of `total_trend_impact` in `calculate_new_price`
(src/main.py 356-362): a fold over the active global events adding
`trend_impact` once per event that passes the gate. -/
def totalTrendImpact (stock : Stock) (g_events : List ActiveGlobalEvent) : ℚ :=
  g_events.foldl
    (fun acc e => if matchesGlobal stock e then acc + e.trend_impact else acc) 0

/-- The code/tag gate of `calculate_new_price` for the local event
(src/main.py 368-369). -/
def matchesLocal (stock_code : String) (stock : Stock) (e : LocalEvent) : Bool :=
  e.affected_codes.contains stock_code ||
    e.affected_tags.any fun t => stock.tags.contains t

/-- The `direct_impact` computed in `calculate_new_price`
(src/main.py 364-370): zero when no local event was triggered or when the
gate fails, the event's `direct_impact_percent` otherwise. -/
def directImpact (stock_code : String) (stock : Stock) : Option LocalEvent → ℚ
  | none => 0
  | some e => if matchesLocal stock_code stock e then e.direct_impact_percent else 0

/-- Embedding of `calculate_new_price` (src/main.py 342-376).  The random
draw `base_drift = random.uniform(-base_volatility, base_volatility)` is
passed in as the parameter `base_drift`. -/
def calculate_new_price (stock_code : String) (stock_data : Stock)
    (current_price : ℚ) (g_events_list : List ActiveGlobalEvent)
    (l_event : Option LocalEvent) (base_drift : ℚ) : ℚ :=
  let total_drift := base_drift + totalTrendImpact stock_data g_events_list
  let new_price := current_price * (1 + total_drift)
  let new_price2 := new_price * (1 + directImpact stock_code stock_data l_event)
  max (1 / 100) new_price2

/-- C1: for every stock, current price, set of active global events and
optional local event, `calculate_new_price` returns
`max(0.01, currentPrice * (1 + baseDrift + trendImpact) * (1 + directImpact))`,
and in particular the returned price is always at least 0.01, no matter how
negative the drift and the impacts are. -/
theorem C1_price_formula_and_floor (stock_code : String) (stock : Stock)
    (current_price : ℚ) (g_events : List ActiveGlobalEvent)
    (l_event : Option LocalEvent) (base_drift : ℚ) :
    calculate_new_price stock_code stock current_price g_events l_event base_drift
        = max (1 / 100)
            (current_price * (1 + base_drift + totalTrendImpact stock g_events)
              * (1 + directImpact stock_code stock l_event))
      ∧ (1 / 100 : ℚ)
          ≤ calculate_new_price stock_code stock current_price g_events l_event
              base_drift := by
  constructor
  · simp [calculate_new_price, add_assoc]
  · exact le_max_left _ _

theorem trendImpact_foldl (stock : Stock) (g_events : List ActiveGlobalEvent) (a : ℚ) :
    g_events.foldl
        (fun acc e => if matchesGlobal stock e then acc + e.trend_impact else acc) a
      = a + ((g_events.filter fun e => matchesGlobal stock e).map
              fun e => e.trend_impact).sum := by
  induction g_events generalizing a with
  | nil => simp
  | cons e rest ih =>
      by_cases h : matchesGlobal stock e
      · simp [List.foldl_cons, List.filter_cons, h, ih, add_assoc]
      · simp [List.foldl_cons, List.filter_cons, h, ih]

/-- C4: the trend impact used by the price engine equals the sum of
`trend_impact` over exactly those active global events whose affected
industries contain the stock's industry or whose affected tags intersect
the stock's tags; each qualifying event contributes exactly once, and an
event matching neither contributes 0 to this stock. -/
theorem C4_trend_impact_per_event (stock : Stock) (g_events : List ActiveGlobalEvent)
    (e : ActiveGlobalEvent) (h : matchesGlobal stock e = false) :
    totalTrendImpact stock g_events
        = ((g_events.filter fun x => matchesGlobal stock x).map
            fun x => x.trend_impact).sum
      ∧ totalTrendImpact stock (g_events ++ [e]) = totalTrendImpact stock g_events
      ∧ ∀ x : ActiveGlobalEvent,
          matchesGlobal stock x = true ↔
            (stock.industry ∈ x.affected_industries
              ∨ ∃ t ∈ x.affected_tags, t ∈ stock.tags) := by
  refine ⟨?_, ?_, ?_⟩
  · simpa using trendImpact_foldl stock g_events 0
  · rw [totalTrendImpact, totalTrendImpact, trendImpact_foldl, trendImpact_foldl]
    simp [List.filter_append, List.filter_cons, h]
  · intro x
    simp [matchesGlobal, List.any_eq_true]

/-- Concrete check for C4: a stock matched by one event through its tag and
unmatched by another event. -/
theorem C4_trend_impact_per_event_witness :
    matchesGlobal
          { name := "QuantumLeap", industry := "tech", tags := ["ai", "cloud"],
            initial_price := some 150 }
          { content := "oil boom", affected_industries := ["energy"],
            affected_tags := ["oil"], trend_impact := 1 / 50,
            duration_ticks := some 4, remaining_ticks := 4, uid := "evt_2" }
        = false
      ∧ (totalTrendImpact
            { name := "QuantumLeap", industry := "tech", tags := ["ai", "cloud"],
              initial_price := some 150 }
            [{ content := "ai boom", affected_industries := ["finance"],
               affected_tags := ["ai"], trend_impact := 3 / 100,
               duration_ticks := some 2, remaining_ticks := 2, uid := "evt_1" }]
          = (([{ content := "ai boom", affected_industries := ["finance"],
                 affected_tags := ["ai"], trend_impact := 3 / 100,
                 duration_ticks := some 2, remaining_ticks := 2,
                 uid := "evt_1" }].filter fun x =>
                  matchesGlobal
                    { name := "QuantumLeap", industry := "tech",
                      tags := ["ai", "cloud"], initial_price := some 150 } x).map
              fun x => x.trend_impact).sum
        ∧ totalTrendImpact
              { name := "QuantumLeap", industry := "tech", tags := ["ai", "cloud"],
                initial_price := some 150 }
              ([{ content := "ai boom", affected_industries := ["finance"],
                  affected_tags := ["ai"], trend_impact := 3 / 100,
                  duration_ticks := some 2, remaining_ticks := 2, uid := "evt_1" }]
                ++ [{ content := "oil boom", affected_industries := ["energy"],
                      affected_tags := ["oil"], trend_impact := 1 / 50,
                      duration_ticks := some 4, remaining_ticks := 4,
                      uid := "evt_2" }])
            = totalTrendImpact
                { name := "QuantumLeap", industry := "tech", tags := ["ai", "cloud"],
                  initial_price := some 150 }
                [{ content := "ai boom", affected_industries := ["finance"],
                   affected_tags := ["ai"], trend_impact := 3 / 100,
                   duration_ticks := some 2, remaining_ticks := 2, uid := "evt_1" }]
        ∧ ∀ x : ActiveGlobalEvent,
            matchesGlobal
                { name := "QuantumLeap", industry := "tech", tags := ["ai", "cloud"],
                  initial_price := some 150 } x = true ↔
              ("tech" ∈ x.affected_industries
                ∨ ∃ t ∈ x.affected_tags, t ∈ ["ai", "cloud"])) :=
  ⟨by decide, C4_trend_impact_per_event _ _ _ (by decide)⟩

/-- A user portfolio as created by `create_user_portfolio`
(src/main.py 428): a cash balance and a code-to-share-count dict. -/
structure Portfolio where
  cash : ℚ
  stocks : List (String × Int)
  deriving DecidableEq, Repr

/-- The held amount of one code: `portfolio["stocks"].get(code, 0)`
(src/main.py 715 and 751). -/
def getHolding (p : Portfolio) (code : String) : Int :=
  (assocLookup p.stocks code).getD 0

/-- The rejection causes of the trading handlers (spec section 7). -/
inductive TradeError where
  | InvalidQuantity
  | UnknownStock
  | InsufficientFunds
  | InsufficientHoldings
  deriving DecidableEq, Repr

/-- Embedding of the trade logic of the `买入` handler `buy_stock`
(src/main.py 690-718) once the caller's portfolio has been loaded: the
quantity check, the price lookup, the funds check, then the cash debit and
holding increment.  On failure the handler returns before mutating
anything, so the original portfolio is returned unchanged; on success the
new portfolio is returned with the reported updated cash and executed
price. -/
def buy (prices : List (String × ℚ)) (portfolio : Portfolio) (code : String)
    (amount : Int) : Portfolio × Except TradeError (ℚ × ℚ) :=
  if amount ≤ 0 then (portfolio, .error .InvalidQuantity)
  else
    match assocLookup prices code with
    | none => (portfolio, .error .UnknownStock)
    | some current_price =>
        let total_cost := current_price * (amount : ℚ)
        if portfolio.cash < total_cost then (portfolio, .error .InsufficientFunds)
        else
          let newP : Portfolio :=
            { cash := portfolio.cash - total_cost,
              stocks := assocSet portfolio.stocks code
                          (getHolding portfolio code + amount) }
          (newP, .ok (newP.cash, current_price))

/-- Embedding of the trade logic of the `卖出` handler `sell_stock`
(src/main.py 740-772): the quantity check, the holdings check, the price
lookup, then the cash credit, the holding decrement, and the removal of
the entry when the count reaches exactly 0. -/
def sell (prices : List (String × ℚ)) (portfolio : Portfolio) (code : String)
    (amount : Int) : Portfolio × Except TradeError (ℚ × ℚ) :=
  if amount ≤ 0 then (portfolio, .error .InvalidQuantity)
  else
    let held_amount := getHolding portfolio code
    if held_amount < amount then (portfolio, .error .InsufficientHoldings)
    else
      match assocLookup prices code with
      | none => (portfolio, .error .UnknownStock)
      | some current_price =>
          let total_profit := current_price * (amount : ℚ)
          let stocks1 := assocSet portfolio.stocks code (held_amount - amount)
          let stocks2 :=
            if held_amount - amount = 0 then assocErase stocks1 code else stocks1
          let newP : Portfolio :=
            { cash := portfolio.cash + total_profit, stocks := stocks2 }
          (newP, .ok (newP.cash, current_price))

/-- The `买入` handler at the level of the per-identity portfolio store:
the portfolio file is loaded, the trade runs, and `save_user_portfolio` is
called only on the success path, so a failed trade leaves the stored
portfolio exactly as it was.  `none` is the "您尚未开户" reply for an
identity without a portfolio. -/
def buy_stock (store : List (String × Portfolio)) (prices : List (String × ℚ))
    (identity code : String) (amount : Int) :
    List (String × Portfolio) × Option (Except TradeError (ℚ × ℚ)) :=
  match assocLookup store identity with
  | none => (store, none)
  | some portfolio =>
      match buy prices portfolio code amount with
      | (_, .error e) => (store, some (.error e))
      | (p2, .ok out) => (assocSet store identity p2, some (.ok out))

/-- The `卖出` handler at the level of the per-identity portfolio store,
persisting only on success. -/
def sell_stock (store : List (String × Portfolio)) (prices : List (String × ℚ))
    (identity code : String) (amount : Int) :
    List (String × Portfolio) × Option (Except TradeError (ℚ × ℚ)) :=
  match assocLookup store identity with
  | none => (store, none)
  | some portfolio =>
      match sell prices portfolio code amount with
      | (_, .error e) => (store, some (.error e))
      | (p2, .ok out) => (assocSet store identity p2, some (.ok out))

/-- C2: for every identity with an existing portfolio, buying fails with
`InvalidQuantity` when the quantity is ≤ 0, with `UnknownStock` when the
code has no current price, with `InsufficientFunds` when cash is below
`currentPrice * quantity`, and on any failure the stored portfolio is left
exactly as it was; otherwise the cash is debited by
`currentPrice * quantity`, the holding is incremented (created if absent,
all other holdings untouched), the result is persisted, and the updated
cash and executed price are reported. -/
theorem C2_buy_checks_and_effects (store : List (String × Portfolio))
    (prices : List (String × ℚ)) (identity code : String) (amount : Int)
    (portfolio : Portfolio) (hp : assocLookup store identity = some portfolio) :
    (amount ≤ 0 →
        buy_stock store prices identity code amount
          = (store, some (.error .InvalidQuantity)))
    ∧ (0 < amount → assocLookup prices code = none →
        buy_stock store prices identity code amount
          = (store, some (.error .UnknownStock)))
    ∧ (∀ price : ℚ, 0 < amount → assocLookup prices code = some price →
        portfolio.cash < price * (amount : ℚ) →
        buy_stock store prices identity code amount
          = (store, some (.error .InsufficientFunds)))
    ∧ (∀ price : ℚ, 0 < amount → assocLookup prices code = some price →
        price * (amount : ℚ) ≤ portfolio.cash →
        ∃ p2 : Portfolio,
          buy_stock store prices identity code amount
              = (assocSet store identity p2, some (.ok (p2.cash, price)))
            ∧ p2.cash = portfolio.cash - price * (amount : ℚ)
            ∧ getHolding p2 code = getHolding portfolio code + amount
            ∧ ∀ c, c ≠ code →
                assocLookup p2.stocks c = assocLookup portfolio.stocks c) := by
  refine ⟨?_, ?_, ?_, ?_⟩
  · intro hq
    simp [buy_stock, hp, buy, hq]
  · intro hq hpr
    simp [buy_stock, hp, buy, not_le.mpr hq, hpr]
  · intro price hq hpr hcash
    simp [buy_stock, hp, buy, not_le.mpr hq, hpr, hcash]
  · intro price hq hpr hcash
    refine ⟨{ cash := portfolio.cash - price * (amount : ℚ),
              stocks := assocSet portfolio.stocks code
                          (getHolding portfolio code + amount) }, ?_, rfl, ?_, ?_⟩
    · simp [buy_stock, hp, buy, not_le.mpr hq, hpr, not_lt.mpr hcash]
    · simp [getHolding, assocLookup_set_self]
    · intro c hc
      exact assocLookup_set_ne _ _ _ _ hc

/-- Concrete check for C2: the successful branch at cash 10000, price 150,
quantity 10. -/
theorem C2_buy_checks_and_effects_witness :
    ∃ p2 : Portfolio,
      buy_stock [("g1_u1", { cash := 10000, stocks := [] })]
            [("QLAI", (150 : ℚ))] "g1_u1" "QLAI" 10
          = (assocSet [("g1_u1", { cash := 10000, stocks := [] })] "g1_u1" p2,
             some (.ok (p2.cash, 150)))
        ∧ p2.cash = (10000 : ℚ) - 150 * ((10 : Int) : ℚ)
        ∧ getHolding p2 "QLAI"
            = getHolding { cash := 10000, stocks := [] } "QLAI" + 10
        ∧ ∀ c, c ≠ "QLAI" →
            assocLookup p2.stocks c
              = assocLookup (Portfolio.stocks { cash := 10000, stocks := [] }) c :=
  (C2_buy_checks_and_effects [("g1_u1", { cash := 10000, stocks := [] })]
      [("QLAI", (150 : ℚ))] "g1_u1" "QLAI" 10 { cash := 10000, stocks := [] }
      (by decide)).2.2.2 150 (by decide) (by decide) (by norm_num)

/-- C3: for every identity with an existing portfolio, selling fails with
`InvalidQuantity` when the quantity is ≤ 0, with `InsufficientHoldings`
when the held amount is below the quantity, with `UnknownStock` when no
current price exists, and on any failure the stored portfolio is
unchanged; otherwise the cash is credited by `currentPrice * quantity`,
the holding is decremented — with the entry removed entirely when it
reaches exactly 0, so a zero count is never stored — the result is
persisted, and the updated cash and executed price are reported. -/
theorem C3_sell_checks_and_effects (store : List (String × Portfolio))
    (prices : List (String × ℚ)) (identity code : String) (amount : Int)
    (portfolio : Portfolio) (hp : assocLookup store identity = some portfolio) :
    (amount ≤ 0 →
        sell_stock store prices identity code amount
          = (store, some (.error .InvalidQuantity)))
    ∧ (0 < amount → getHolding portfolio code < amount →
        sell_stock store prices identity code amount
          = (store, some (.error .InsufficientHoldings)))
    ∧ (0 < amount → amount ≤ getHolding portfolio code →
        assocLookup prices code = none →
        sell_stock store prices identity code amount
          = (store, some (.error .UnknownStock)))
    ∧ (∀ price : ℚ, 0 < amount → amount ≤ getHolding portfolio code →
        assocLookup prices code = some price →
        (portfolio.stocks.map Prod.fst).Nodup →
        ∃ p2 : Portfolio,
          sell_stock store prices identity code amount
              = (assocSet store identity p2, some (.ok (p2.cash, price)))
            ∧ p2.cash = portfolio.cash + price * (amount : ℚ)
            ∧ (getHolding portfolio code = amount →
                assocLookup p2.stocks code = none)
            ∧ (amount < getHolding portfolio code →
                assocLookup p2.stocks code
                  = some (getHolding portfolio code - amount))
            ∧ ∀ c, c ≠ code →
                assocLookup p2.stocks c = assocLookup portfolio.stocks c) := by
  refine ⟨?_, ?_, ?_, ?_⟩
  · intro hq
    simp [sell_stock, hp, sell, hq]
  · intro hq hheld
    simp [sell_stock, hp, sell, not_le.mpr hq, hheld]
  · intro hq hheld hpr
    simp [sell_stock, hp, sell, not_le.mpr hq, not_lt.mpr hheld, hpr]
  · intro price hq hheld hpr hnd
    refine ⟨{ cash := portfolio.cash + price * (amount : ℚ),
              stocks :=
                if getHolding portfolio code - amount = 0 then
                  assocErase
                    (assocSet portfolio.stocks code
                      (getHolding portfolio code - amount)) code
                else
                  assocSet portfolio.stocks code
                    (getHolding portfolio code - amount) },
           ?_, rfl, ?_, ?_, ?_⟩
    · simp [sell_stock, hp, sell, not_le.mpr hq, not_lt.mpr hheld, hpr]
    · intro heq
      have hz : getHolding portfolio code - amount = 0 := by omega
      simp only [hz, if_true]
      exact assocLookup_erase_self _ _ (nodup_keys_assocSet _ _ _ hnd)
    · intro hlt
      have hz : ¬ getHolding portfolio code - amount = 0 := by omega
      simp only [hz, if_false]
      exact assocLookup_set_self _ _ _
    · intro c hc
      by_cases hz : getHolding portfolio code - amount = 0
      · simp only [hz, if_true]
        rw [assocLookup_erase_ne _ _ _ hc, assocLookup_set_ne _ _ _ _ hc]
      · simp only [hz, if_false]
        exact assocLookup_set_ne _ _ _ _ hc

/-- Concrete check for C3: the successful branch selling the whole
position, which removes the holdings entry. -/
theorem C3_sell_checks_and_effects_witness :
    ∃ p2 : Portfolio,
      sell_stock [("g1_u1", { cash := 500, stocks := [("QLAI", 10)] })]
            [("QLAI", (150 : ℚ))] "g1_u1" "QLAI" 10
          = (assocSet [("g1_u1", { cash := 500, stocks := [("QLAI", 10)] })]
               "g1_u1" p2,
             some (.ok (p2.cash, 150)))
        ∧ p2.cash = (500 : ℚ) + 150 * ((10 : Int) : ℚ)
        ∧ (getHolding { cash := 500, stocks := [("QLAI", 10)] } "QLAI" = 10 →
            assocLookup p2.stocks "QLAI" = none)
        ∧ ((10 : Int) < getHolding { cash := 500, stocks := [("QLAI", 10)] } "QLAI" →
            assocLookup p2.stocks "QLAI"
              = some (getHolding { cash := 500, stocks := [("QLAI", 10)] } "QLAI"
                        - 10))
        ∧ ∀ c, c ≠ "QLAI" →
            assocLookup p2.stocks c
              = assocLookup
                  (Portfolio.stocks { cash := 500, stocks := [("QLAI", 10)] }) c :=
  (C3_sell_checks_and_effects [("g1_u1", { cash := 500, stocks := [("QLAI", 10)] })]
      [("QLAI", (150 : ℚ))] "g1_u1" "QLAI" 10
      { cash := 500, stocks := [("QLAI", 10)] } (by decide)).2.2.2 150 (by decide)
    (by decide) (by decide) (by decide)

/-- Step 1 of `market_ticker` (src/main.py 275) for one active event:
`event["remaining_ticks"] -= 1`. -/
def decrementEvent (e : ActiveGlobalEvent) : ActiveGlobalEvent :=
  { e with remaining_ticks := e.remaining_ticks - 1 }

/-- Step 2 of `market_ticker` (src/main.py 285-289): spread the chosen
template and add `remaining_ticks = duration_ticks` (default 1) and the
fresh instance id. -/
def instantiateGlobal (t : GlobalEvent) (uid : String) : ActiveGlobalEvent :=
  { content := t.content, affected_industries := t.affected_industries,
    affected_tags := t.affected_tags, trend_impact := t.trend_impact,
    duration_ticks := t.duration_ticks,
    remaining_ticks := ((t.duration_ticks.getD 1 : Nat) : Int),
    uid := uid }

/-- Steps 1-2 of `market_ticker` (src/main.py 272-291): decrement every
active event, keep those still strictly positive, collect the rest as
expired, and append at most one newly triggered event.  `trigger` is
`some (template, uid)` exactly when `random.random() < global_event_chance`
fired and `random.choice` picked `template`.  Returns
(next active set, expired events, newly triggered events). -/
def tickEvents (active : List ActiveGlobalEvent)
    (trigger : Option (GlobalEvent × String)) :
    List ActiveGlobalEvent × List ActiveGlobalEvent × List ActiveGlobalEvent :=
  let dec := active.map decrementEvent
  let kept := dec.filter fun e => decide (0 < e.remaining_ticks)
  let expired := dec.filter fun e => decide (e.remaining_ticks ≤ 0)
  match trigger with
  | none => (kept, expired, [])
  | some (t, uid) =>
      (kept ++ [instantiateGlobal t uid], expired, [instantiateGlobal t uid])

theorem length_filter_partition (l : List ActiveGlobalEvent) :
    (l.filter fun e => decide (0 < e.remaining_ticks)).length
      + (l.filter fun e => decide (e.remaining_ticks ≤ 0)).length = l.length := by
  induction l with
  | nil => rfl
  | cons e rest ih =>
      by_cases h : 0 < e.remaining_ticks
      · have h2 : ¬ e.remaining_ticks ≤ 0 := by omega
        simp [List.filter_cons, h, h2]
        omega
      · have h2 : e.remaining_ticks ≤ 0 := by omega
        simp [List.filter_cons, h, h2]
        omega

/-- C5: on every tick each active global event's `remaining_ticks` is
decremented by exactly 1, the events whose decremented count is ≤ 0 are
removed and reported as expired, at most one new event (instantiated with
`remaining_ticks = duration_ticks`, default 1) is appended, the size of
the active set changes exactly by the expiry removals plus the optional
trigger, and a tick that triggers nothing never grows the set. -/
theorem C5_event_lifecycle (active : List ActiveGlobalEvent)
    (trigger : Option (GlobalEvent × String)) :
    (∀ e ∈ active,
        (0 < (decrementEvent e).remaining_ticks →
          decrementEvent e ∈ (tickEvents active trigger).1)
      ∧ ((decrementEvent e).remaining_ticks ≤ 0 →
          decrementEvent e ∈ (tickEvents active trigger).2.1))
    ∧ (∀ e ∈ (tickEvents active trigger).2.1, e.remaining_ticks ≤ 0)
    ∧ (tickEvents active trigger).1.length + (tickEvents active trigger).2.1.length
        = active.length + (match trigger with | none => 0 | some _ => 1)
    ∧ (trigger = none →
        (tickEvents active trigger).1.length ≤ active.length
        ∧ (tickEvents active trigger).2.2 = [])
    ∧ (∀ t uid, trigger = some (t, uid) →
        instantiateGlobal t uid ∈ (tickEvents active trigger).1
        ∧ (tickEvents active trigger).2.2 = [instantiateGlobal t uid]
        ∧ (instantiateGlobal t uid).remaining_ticks
            = ((t.duration_ticks.getD 1 : Nat) : Int)) := by
  rcases trigger with _ | ⟨t, uid⟩
  · refine ⟨?_, ?_, ?_, ?_, ?_⟩
    · intro e he
      constructor
      · intro hpos
        simp only [tickEvents, List.mem_filter, decide_eq_true_eq]
        exact ⟨List.mem_map_of_mem _ he, hpos⟩
      · intro hnp
        simp only [tickEvents, List.mem_filter, decide_eq_true_eq]
        exact ⟨List.mem_map_of_mem _ he, hnp⟩
    · intro e he
      simp only [tickEvents, List.mem_filter, decide_eq_true_eq] at he
      exact he.2
    · show ((active.map decrementEvent).filter
            fun e => decide (0 < e.remaining_ticks)).length
          + ((active.map decrementEvent).filter
              fun e => decide (e.remaining_ticks ≤ 0)).length
          = active.length + 0
      simpa using length_filter_partition (active.map decrementEvent)
    · intro _
      constructor
      · show ((active.map decrementEvent).filter
              fun e => decide (0 < e.remaining_ticks)).length ≤ active.length
        calc ((active.map decrementEvent).filter
                fun e => decide (0 < e.remaining_ticks)).length
            ≤ (active.map decrementEvent).length := List.length_filter_le _ _
          _ = active.length := List.length_map active decrementEvent
      · rfl
    · intro t uid h
      cases h
  · refine ⟨?_, ?_, ?_, ?_, ?_⟩
    · intro e he
      constructor
      · intro hpos
        simp only [tickEvents, List.mem_append, List.mem_filter, decide_eq_true_eq]
        exact Or.inl ⟨List.mem_map_of_mem _ he, hpos⟩
      · intro hnp
        simp only [tickEvents, List.mem_filter, decide_eq_true_eq]
        exact ⟨List.mem_map_of_mem _ he, hnp⟩
    · intro e he
      simp only [tickEvents, List.mem_filter, decide_eq_true_eq] at he
      exact he.2
    · show (((active.map decrementEvent).filter
              fun e => decide (0 < e.remaining_ticks))
            ++ [instantiateGlobal t uid]).length
          + ((active.map decrementEvent).filter
              fun e => decide (e.remaining_ticks ≤ 0)).length
          = active.length + 1
      have hp := length_filter_partition (active.map decrementEvent)
      simp only [List.length_map] at hp
      simp only [List.length_append, List.length_cons, List.length_nil]
      omega
    · intro h
      cases h
    · intro t' uid' h
      cases h
      refine ⟨?_, rfl, rfl⟩
      simp [tickEvents]

/-- Concrete active events for the C5 check: one survives the decrement,
one expires. -/
def sampleActiveEvents : List ActiveGlobalEvent :=
  [{ content := "ai boom", affected_industries := ["tech"], affected_tags := ["ai"],
     trend_impact := 3 / 100, duration_ticks := some 5, remaining_ticks := 2,
     uid := "evt_1" },
   { content := "oil slump", affected_industries := ["energy"], affected_tags := [],
     trend_impact := -(1 / 50), duration_ticks := some 3, remaining_ticks := 1,
     uid := "evt_2" }]

/-- Concrete global event template for the C5 check. -/
def sampleGlobalTemplate : GlobalEvent :=
  { content := "trade deal", affected_industries := ["consumer"],
    affected_tags := ["retail"], trend_impact := 1 / 100,
    duration_ticks := some 8 }

/-- Concrete check for C5: the size equation with a trigger, the no-growth
bound without one, and the reported new event. -/
theorem C5_event_lifecycle_witness :
    (tickEvents sampleActiveEvents (some (sampleGlobalTemplate, "evt_9"))).1.length
        + (tickEvents sampleActiveEvents
            (some (sampleGlobalTemplate, "evt_9"))).2.1.length
        = sampleActiveEvents.length + 1
    ∧ (tickEvents sampleActiveEvents none).1.length ≤ sampleActiveEvents.length
    ∧ (tickEvents sampleActiveEvents (some (sampleGlobalTemplate, "evt_9"))).2.2
        = [instantiateGlobal sampleGlobalTemplate "evt_9"] :=
  ⟨(C5_event_lifecycle sampleActiveEvents
      (some (sampleGlobalTemplate, "evt_9"))).2.2.1,
   ((C5_event_lifecycle sampleActiveEvents none).2.2.2.1 rfl).1,
   ((C5_event_lifecycle sampleActiveEvents
      (some (sampleGlobalTemplate, "evt_9"))).2.2.2.2 sampleGlobalTemplate "evt_9"
      rfl).2.1⟩

/-- The chart-history bound (src/main.py 26). -/
def CHART_HISTORY_LENGTH : Nat := 100

/-- The per-stock history update of `market_ticker` (src/main.py 310-315):
append the new price, then keep only the last `CHART_HISTORY_LENGTH`
entries (`history_list[-CHART_HISTORY_LENGTH:]`) when the list exceeds the
bound. -/
def updateHistory (history : List ℚ) (new_price : ℚ) : List ℚ :=
  if CHART_HISTORY_LENGTH < (history ++ [new_price]).length then
    (history ++ [new_price]).drop
      ((history ++ [new_price]).length - CHART_HISTORY_LENGTH)
  else history ++ [new_price]

theorem updateHistory_length (h : List ℚ) (p : ℚ) :
    (updateHistory h p).length = min (h.length + 1) CHART_HISTORY_LENGTH := by
  unfold updateHistory CHART_HISTORY_LENGTH
  split
  · next hl =>
      simp only [List.length_drop, List.length_append, List.length_cons,
        List.length_nil] at hl ⊢
      omega
  · next hl =>
      simp only [List.length_append, List.length_cons, List.length_nil,
        not_lt] at hl ⊢
      omega

theorem updateHistory_suffix (h : List ℚ) (p : ℚ) :
    updateHistory h p <:+ h ++ [p] := by
  unfold updateHistory
  split
  · exact List.drop_suffix _ _
  · exact List.suffix_refl _

theorem updateHistory_getLast (h : List ℚ) (p : ℚ) :
    (updateHistory h p).getLast? = some p := by
  unfold updateHistory
  split
  · next hl =>
      have hk : (h ++ [p]).length - CHART_HISTORY_LENGTH ≤ h.length := by
        simp only [List.length_append, List.length_cons, List.length_nil] at hl ⊢
        unfold CHART_HISTORY_LENGTH at hl ⊢
        omega
      rw [List.drop_append_of_le_length hk, List.getLast?_concat]
  · exact List.getLast?_concat _

theorem updateHistory_foldl_length (ps : List ℚ) (h : List ℚ) (hps : ps ≠ []) :
    (ps.foldl updateHistory h).length ≤ CHART_HISTORY_LENGTH := by
  induction ps generalizing h with
  | nil => exact absurd rfl hps
  | cons q rest ih =>
      cases rest with
      | nil =>
          simp only [List.foldl_cons, List.foldl_nil]
          have := updateHistory_length h q
          omega
      | cons r rs =>
          exact ih (updateHistory h q) (by simp)

/-- The price computed by step 4 of `market_ticker` for one catalog entry
(src/main.py 300-307): a stock with no entry in the current price map is
priced from its `initial_price` (default 100.0). -/
def tickPriceOf (prices : List (String × ℚ)) (gs : List ActiveGlobalEvent)
    (l : Option LocalEvent) (drift : String → ℚ) (cs : String × Stock) : ℚ :=
  calculate_new_price cs.1 cs.2
    ((assocLookup prices cs.1).getD (cs.2.initial_price.getD 100)) gs l (drift cs.1)

/-- The fresh `new_prices` dict built by step 4 of `market_ticker`
(src/main.py 299-308, committed at 318): rebuilt from scratch over the
stock catalog. -/
def tickNewPrices (catalog : List (String × Stock)) (prices : List (String × ℚ))
    (gs : List ActiveGlobalEvent) (l : Option LocalEvent) (drift : String → ℚ) :
    List (String × ℚ) :=
  catalog.map fun cs => (cs.1, tickPriceOf prices gs l drift cs)

/-- The price-history map after step 4 of `market_ticker`
(src/main.py 310-315): for every catalog entry, the existing history
(`setdefault(code, [])`) is extended with the new price and trimmed. -/
def tickNewHistory (catalog : List (String × Stock)) (prices : List (String × ℚ))
    (hist : List (String × List ℚ)) (gs : List ActiveGlobalEvent)
    (l : Option LocalEvent) (drift : String → ℚ) : List (String × List ℚ) :=
  catalog.foldl
    (fun h cs =>
      assocSet h cs.1
        (updateHistory ((assocLookup h cs.1).getD []) (tickPriceOf prices gs l drift cs)))
    hist

/-- The mutable game state persisted by `save_game_state`
(src/main.py 450-454): exactly the prices, the active global events and
the price history. -/
structure MarketState where
  prices : List (String × ℚ)
  active_global_events : List ActiveGlobalEvent
  price_history : List (String × List ℚ)
  deriving DecidableEq, Repr

/-- One full state transition of `market_ticker` (steps 1-4,
src/main.py 272-319): advance the event lifecycle, then rebuild the price
map and extend the history under the game lock.  Returns the new state
together with the expired and newly triggered events used for the news
digest. -/
def market_tick (catalog : List (String × Stock)) (s : MarketState)
    (trigger : Option (GlobalEvent × String)) (l_event : Option LocalEvent)
    (drift : String → ℚ) :
    MarketState × List ActiveGlobalEvent × List ActiveGlobalEvent :=
  let te := tickEvents s.active_global_events trigger
  ({ prices := tickNewPrices catalog s.prices te.1 l_event drift,
     active_global_events := te.1,
     price_history :=
       tickNewHistory catalog s.prices s.price_history te.1 l_event drift },
   te.2.1, te.2.2)

theorem market_tick_prices (catalog : List (String × Stock)) (s : MarketState)
    (trigger : Option (GlobalEvent × String)) (l_event : Option LocalEvent)
    (drift : String → ℚ) :
    (market_tick catalog s trigger l_event drift).1.prices
      = tickNewPrices catalog s.prices
          (tickEvents s.active_global_events trigger).1 l_event drift := rfl

theorem market_tick_history (catalog : List (String × Stock)) (s : MarketState)
    (trigger : Option (GlobalEvent × String)) (l_event : Option LocalEvent)
    (drift : String → ℚ) :
    (market_tick catalog s trigger l_event drift).1.price_history
      = tickNewHistory catalog s.prices s.price_history
          (tickEvents s.active_global_events trigger).1 l_event drift := rfl

theorem market_tick_active (catalog : List (String × Stock)) (s : MarketState)
    (trigger : Option (GlobalEvent × String)) (l_event : Option LocalEvent)
    (drift : String → ℚ) :
    (market_tick catalog s trigger l_event drift).1.active_global_events
      = (tickEvents s.active_global_events trigger).1 := rfl

theorem tickNewHistory_cons (cs : String × Stock) (rest : List (String × Stock))
    (prices : List (String × ℚ)) (hist : List (String × List ℚ))
    (gs : List ActiveGlobalEvent) (l : Option LocalEvent) (drift : String → ℚ) :
    tickNewHistory (cs :: rest) prices hist gs l drift
      = tickNewHistory rest prices
          (assocSet hist cs.1
            (updateHistory ((assocLookup hist cs.1).getD [])
              (tickPriceOf prices gs l drift cs))) gs l drift := rfl

theorem assocLookup_tickNewHistory_not_mem (catalog : List (String × Stock))
    (prices : List (String × ℚ)) (hist : List (String × List ℚ))
    (gs : List ActiveGlobalEvent) (l : Option LocalEvent) (drift : String → ℚ)
    (c : String) (hc : c ∉ catalog.map Prod.fst) :
    assocLookup (tickNewHistory catalog prices hist gs l drift) c
      = assocLookup hist c := by
  induction catalog generalizing hist with
  | nil => rfl
  | cons cs rest ih =>
      simp only [List.map_cons, List.mem_cons, not_or] at hc
      rw [tickNewHistory_cons, ih _ hc.2, assocLookup_set_ne _ _ _ _ hc.1]

theorem assocLookup_tickNewHistory (catalog : List (String × Stock))
    (prices : List (String × ℚ)) (hist : List (String × List ℚ))
    (gs : List ActiveGlobalEvent) (l : Option LocalEvent) (drift : String → ℚ)
    (c : String) (s : Stock) (hnd : (catalog.map Prod.fst).Nodup)
    (hmem : (c, s) ∈ catalog) :
    assocLookup (tickNewHistory catalog prices hist gs l drift) c
      = some (updateHistory ((assocLookup hist c).getD [])
                (tickPriceOf prices gs l drift (c, s))) := by
  induction catalog generalizing hist with
  | nil => exact absurd hmem (List.not_mem_nil _)
  | cons cs rest ih =>
      simp only [List.map_cons, List.nodup_cons] at hnd
      rcases List.mem_cons.mp hmem with heq | hmem'
      · cases heq
        rw [tickNewHistory_cons,
          assocLookup_tickNewHistory_not_mem rest prices _ gs l drift c hnd.1,
          assocLookup_set_self]
      · have hcmem : c ∈ rest.map Prod.fst := by
          simpa using List.mem_map_of_mem Prod.fst hmem'
        have hne : c ≠ cs.1 := fun h => hnd.1 (h ▸ hcmem)
        rw [tickNewHistory_cons, ih _ hnd.2 hmem',
          assocLookup_set_ne _ _ _ _ hne]

theorem assocLookup_tickNewPrices (catalog : List (String × Stock))
    (prices : List (String × ℚ)) (gs : List ActiveGlobalEvent)
    (l : Option LocalEvent) (drift : String → ℚ) (c : String) (s : Stock)
    (hnd : (catalog.map Prod.fst).Nodup) (hmem : (c, s) ∈ catalog) :
    assocLookup (tickNewPrices catalog prices gs l drift) c
      = some (tickPriceOf prices gs l drift (c, s)) := by
  induction catalog with
  | nil => exact absurd hmem (List.not_mem_nil _)
  | cons cs rest ih =>
      simp only [List.map_cons, List.nodup_cons] at hnd
      rcases List.mem_cons.mp hmem with heq | hmem'
      · cases heq
        simp [tickNewPrices, assocLookup]
      · have hcmem : c ∈ rest.map Prod.fst := by
          simpa using List.mem_map_of_mem Prod.fst hmem'
        have hne : cs.1 ≠ c := fun h => hnd.1 (h ▸ hcmem)
        simp only [tickNewPrices, List.map_cons, assocLookup, if_neg hne]
        exact ih hnd.2 hmem'

/-- C10 (implicit): after every tick commits, the price map contains
exactly one price per catalog code (in catalog order) and no others — the
whole map is rebuilt from the catalog — and a catalog stock with no price
entering the tick is priced by feeding its `initial_price` (100 when the
catalog entry lacks one) to the price engine as the current price. -/
theorem C10_prices_rebuilt_from_catalog (catalog : List (String × Stock))
    (s : MarketState) (trigger : Option (GlobalEvent × String))
    (l_event : Option LocalEvent) (drift : String → ℚ)
    (hnd : (catalog.map Prod.fst).Nodup) :
    ((market_tick catalog s trigger l_event drift).1.prices.map Prod.fst
        = catalog.map Prod.fst)
    ∧ ∀ c stock, (c, stock) ∈ catalog → assocLookup s.prices c = none →
        assocLookup (market_tick catalog s trigger l_event drift).1.prices c
          = some (calculate_new_price c stock (stock.initial_price.getD 100)
                    (tickEvents s.active_global_events trigger).1 l_event
                    (drift c)) := by
  constructor
  · show (tickNewPrices catalog s.prices _ l_event drift).map Prod.fst = _
    simp [tickNewPrices, List.map_map, Function.comp]
  · intro c stock hmem hnone
    show assocLookup (tickNewPrices catalog s.prices _ l_event drift) c = _
    rw [assocLookup_tickNewPrices catalog s.prices _ l_event drift c stock hnd hmem]
    simp [tickPriceOf, hnone]

/-- Concrete check for C10: a one-stock catalog with an empty incoming
price map. -/
theorem C10_prices_rebuilt_from_catalog_witness :
    ((market_tick [("TEST", { name := "t", industry := "tech", tags := [],
                              initial_price := none })]
          { prices := [], active_global_events := [], price_history := [] }
          none none fun _ => 0).1.prices.map Prod.fst
        = ([("TEST", ({ name := "t", industry := "tech", tags := [],
                        initial_price := none } : Stock))].map Prod.fst))
    ∧ ∀ c stock,
        (c, stock) ∈ [("TEST", ({ name := "t", industry := "tech", tags := [],
                                  initial_price := none } : Stock))] →
        assocLookup
            (MarketState.prices
              { prices := [], active_global_events := [], price_history := [] })
            c = none →
        assocLookup
            ((market_tick [("TEST", { name := "t", industry := "tech", tags := [],
                                      initial_price := none })]
                { prices := [], active_global_events := [], price_history := [] }
                none none fun _ => 0).1.prices) c
          = some (calculate_new_price c stock (stock.initial_price.getD 100)
                    (tickEvents
                      (MarketState.active_global_events
                        { prices := [], active_global_events := [],
                          price_history := [] }) none).1 none 0) :=
  C10_prices_rebuilt_from_catalog
    [("TEST", { name := "t", industry := "tech", tags := [],
                initial_price := none })]
    { prices := [], active_global_events := [], price_history := [] }
    none none (fun _ => 0) (by decide)

/-- C6: a single history update appends the new price, keeps only the most
recent `CHART_HISTORY_LENGTH` entries in order (the result is a suffix of
the appended list with length `min (n+1) 100`), and ends with the new
price; the bound holds after any number of ticks; and immediately after a
tick commits the last element of `price_history[code]` equals
`prices[code]` and the history length is at most 100. -/
theorem C6_history_bounded_fifo (h : List ℚ) (p : ℚ) (ps : List ℚ)
    (catalog : List (String × Stock)) (s : MarketState)
    (trigger : Option (GlobalEvent × String)) (l_event : Option LocalEvent)
    (drift : String → ℚ) (c : String) (stock : Stock)
    (hps : ps ≠ []) (hnd : (catalog.map Prod.fst).Nodup)
    (hmem : (c, stock) ∈ catalog) :
    (updateHistory h p).length = min (h.length + 1) CHART_HISTORY_LENGTH
    ∧ updateHistory h p <:+ h ++ [p]
    ∧ (updateHistory h p).getLast? = some p
    ∧ (ps.foldl updateHistory h).length ≤ CHART_HISTORY_LENGTH
    ∧ ∃ hl : List ℚ,
        assocLookup (market_tick catalog s trigger l_event drift).1.price_history c
            = some hl
        ∧ hl.length ≤ CHART_HISTORY_LENGTH
        ∧ hl.getLast?
            = assocLookup (market_tick catalog s trigger l_event drift).1.prices c := by
  refine ⟨updateHistory_length h p, updateHistory_suffix h p,
    updateHistory_getLast h p, updateHistory_foldl_length ps h hps, ?_⟩
  refine ⟨updateHistory ((assocLookup s.price_history c).getD [])
            (tickPriceOf s.prices (tickEvents s.active_global_events trigger).1
              l_event drift (c, stock)), ?_, ?_, ?_⟩
  · rw [market_tick_history]
    exact assocLookup_tickNewHistory catalog s.prices s.price_history _ l_event
      drift c stock hnd hmem
  · rw [updateHistory_length]
    omega
  · rw [updateHistory_getLast, market_tick_prices,
      assocLookup_tickNewPrices catalog s.prices _ l_event drift c stock hnd hmem]

/-- Concrete check for C6 at a one-stock catalog with a one-point history. -/
theorem C6_history_bounded_fifo_witness :
    ((updateHistory [1] 2).length = min (1 + 1) CHART_HISTORY_LENGTH)
    ∧ updateHistory [1] 2 <:+ [1] ++ [2]
    ∧ (updateHistory [1] 2).getLast? = some 2
    ∧ (([3] : List ℚ).foldl updateHistory [1]).length ≤ CHART_HISTORY_LENGTH
    ∧ ∃ hl : List ℚ,
        assocLookup
            ((market_tick [("TEST", { name := "t", industry := "tech", tags := [],
                                      initial_price := some 100 })]
                { prices := [("TEST", 100)], active_global_events := [],
                  price_history := [("TEST", [100])] }
                none none fun _ => 0).1.price_history) "TEST"
          = some hl
        ∧ hl.length ≤ CHART_HISTORY_LENGTH
        ∧ hl.getLast?
            = assocLookup
                ((market_tick [("TEST", { name := "t", industry := "tech",
                                          tags := [], initial_price := some 100 })]
                    { prices := [("TEST", 100)], active_global_events := [],
                      price_history := [("TEST", [100])] }
                    none none fun _ => 0).1.prices) "TEST" :=
  C6_history_bounded_fifo [1] 2 [3]
    [("TEST", { name := "t", industry := "tech", tags := [],
                initial_price := some 100 })]
    { prices := [("TEST", 100)], active_global_events := [],
      price_history := [("TEST", [100])] }
    none none (fun _ => 0) "TEST"
    { name := "t", industry := "tech", tags := [], initial_price := some 100 }
    (by simp) (by decide) (by decide)

/-- Embedding of `create_user_portfolio` (src/main.py 419-430) together
with the `get_user_portfolio` load it delegates to: the store maps the
group-and-user identity to the stored portfolio file.  An existing file is
returned verbatim; otherwise a portfolio with the configured starting cash
and empty holdings is created, persisted and returned. -/
def create_user_portfolio (store : List (String × Portfolio)) (identity : String)
    (starting_cash : ℚ) : Option Portfolio × List (String × Portfolio) :=
  match assocLookup store identity with
  | some p => (some p, store)
  | none =>
      (some { cash := starting_cash, stocks := [] },
       assocSet store identity { cash := starting_cash, stocks := [] })

/-- C9: `getOrCreate` is idempotent — the first call for a fresh identity
creates a portfolio with the configured starting cash and empty holdings
and persists it, every subsequent call returns the existing portfolio
verbatim without resetting cash (so two calls on a fresh identity return
the same cash value), and the call never modifies an already existing
portfolio (or any other identity's entry). -/
theorem C9_getOrCreate_idempotent (store : List (String × Portfolio))
    (identity : String) (starting_cash : ℚ) :
    (∀ p, assocLookup store identity = some p →
        create_user_portfolio store identity starting_cash = (some p, store))
    ∧ (assocLookup store identity = none →
        (create_user_portfolio store identity starting_cash).1
            = some { cash := starting_cash, stocks := [] }
        ∧ assocLookup (create_user_portfolio store identity starting_cash).2
              identity
            = some { cash := starting_cash, stocks := [] }
        ∧ create_user_portfolio
              (create_user_portfolio store identity starting_cash).2 identity
              starting_cash
            = (some { cash := starting_cash, stocks := [] },
               (create_user_portfolio store identity starting_cash).2)
        ∧ ∀ c, c ≠ identity →
            assocLookup (create_user_portfolio store identity starting_cash).2 c
              = assocLookup store c) := by
  constructor
  · intro p hp
    simp [create_user_portfolio, hp]
  · intro hn
    have h1 : create_user_portfolio store identity starting_cash
        = (some { cash := starting_cash, stocks := [] },
           assocSet store identity { cash := starting_cash, stocks := [] }) := by
      simp [create_user_portfolio, hn]
    refine ⟨by rw [h1], ?_, ?_, ?_⟩
    · rw [h1]
      exact assocLookup_set_self _ _ _
    · rw [h1]
      simp [create_user_portfolio, assocLookup_set_self]
    · intro c hc
      rw [h1]
      exact assocLookup_set_ne _ _ _ _ hc

/-- Concrete check for C9: a fresh identity on an empty store. -/
theorem C9_getOrCreate_idempotent_witness :
    (create_user_portfolio [] "g1_u1" 10000).1
        = some { cash := 10000, stocks := [] }
    ∧ assocLookup (create_user_portfolio [] "g1_u1" 10000).2 "g1_u1"
        = some { cash := 10000, stocks := [] }
    ∧ create_user_portfolio (create_user_portfolio [] "g1_u1" 10000).2 "g1_u1"
          10000
        = (some { cash := 10000, stocks := [] },
           (create_user_portfolio [] "g1_u1" 10000).2)
    ∧ ∀ c, c ≠ "g1_u1" →
        assocLookup (create_user_portfolio [] "g1_u1" 10000).2 c
          = assocLookup [] c :=
  (C9_getOrCreate_idempotent [] "g1_u1" 10000).2 rfl

/-- The keys of the state dict written by `save_game_state`
(src/main.py 450-454): the persisted MarketState consists of exactly
these three fields. -/
def save_game_state_keys : List String :=
  ["prices", "active_global_events", "price_history"]

/-- C8 counterexample: the claim asserts that a triggered local event
replaces a persisted `last_local_event_news` field of MarketState, but
`save_game_state` persists no such field — the saved state holds exactly
the keys `prices`, `active_global_events` and `price_history`, so the
asserted persistent trace does not exist. -/
theorem C8_counterexample :
    ("last_local_event_news" ∈ save_game_state_keys) = False
    ∧ save_game_state_keys = ["prices", "active_global_events", "price_history"] :=
  ⟨by simp [save_game_state_keys], rfl⟩

theorem tickPriceOf_local_no_match (prices : List (String × ℚ))
    (gs : List ActiveGlobalEvent) (drift : String → ℚ) (e : LocalEvent)
    (cs : String × Stock) (h : matchesLocal cs.1 cs.2 e = false) :
    tickPriceOf prices gs (some e) drift cs = tickPriceOf prices gs none drift cs := by
  simp [tickPriceOf, calculate_new_price, directImpact, h]

theorem tickNewPrices_congr (catalog : List (String × Stock))
    (prices : List (String × ℚ)) (gs : List ActiveGlobalEvent)
    (drift : String → ℚ) (l1 l2 : Option LocalEvent)
    (h : ∀ cs ∈ catalog,
      tickPriceOf prices gs l1 drift cs = tickPriceOf prices gs l2 drift cs) :
    tickNewPrices catalog prices gs l1 drift
      = tickNewPrices catalog prices gs l2 drift := by
  induction catalog with
  | nil => rfl
  | cons cs rest ih =>
      simp only [tickNewPrices, List.map_cons]
      rw [h cs (List.mem_cons_self _ _)]
      have := ih fun cs' hcs' => h cs' (List.mem_cons_of_mem _ hcs')
      simp only [tickNewPrices] at this
      rw [this]

theorem tickNewHistory_congr (catalog : List (String × Stock))
    (prices : List (String × ℚ)) (hist : List (String × List ℚ))
    (gs : List ActiveGlobalEvent) (drift : String → ℚ)
    (l1 l2 : Option LocalEvent)
    (h : ∀ cs ∈ catalog,
      tickPriceOf prices gs l1 drift cs = tickPriceOf prices gs l2 drift cs) :
    tickNewHistory catalog prices hist gs l1 drift
      = tickNewHistory catalog prices hist gs l2 drift := by
  induction catalog generalizing hist with
  | nil => rfl
  | cons cs rest ih =>
      rw [tickNewHistory_cons, tickNewHistory_cons, h cs (List.mem_cons_self _ _)]
      exact ih _ fun cs' hcs' => h cs' (List.mem_cons_of_mem _ hcs')

/-- C8 (amended): a triggered local event is never stored in the active
event set and has no duration; the code persists no
`last_local_event_news` field at all — the persisted MarketState consists
only of `prices`, `active_global_events` and `price_history`, the event's
content text leaves no trace in the committed state (replacing the content
changes nothing), and a local event matching no stock leaves every
persisted field exactly as a tick without a local event would. -/
theorem C8_local_event_no_persistent_trace (catalog : List (String × Stock))
    (s : MarketState) (trigger : Option (GlobalEvent × String))
    (l_event : Option LocalEvent) (drift : String → ℚ) (content2 : String) :
    ((market_tick catalog s trigger l_event drift).1.active_global_events
        = (market_tick catalog s trigger none drift).1.active_global_events)
    ∧ (∀ e : LocalEvent, l_event = some e →
        market_tick catalog s trigger (some { e with content := content2 }) drift
          = market_tick catalog s trigger (some e) drift)
    ∧ (∀ e : LocalEvent, l_event = some e →
        (∀ cs ∈ catalog, matchesLocal cs.1 cs.2 e = false) →
        (market_tick catalog s trigger l_event drift).1.prices
            = (market_tick catalog s trigger none drift).1.prices
        ∧ (market_tick catalog s trigger l_event drift).1.price_history
            = (market_tick catalog s trigger none drift).1.price_history
        ∧ (market_tick catalog s trigger l_event drift).1.active_global_events
            = (market_tick catalog s trigger none drift).1.active_global_events)
    ∧ ("last_local_event_news" ∈ save_game_state_keys) = False := by
  refine ⟨rfl, ?_, ?_, by simp [save_game_state_keys]⟩
  · intro e _
    rfl
  · rintro e rfl hno
    have hpt : ∀ cs ∈ catalog,
        tickPriceOf s.prices (tickEvents s.active_global_events trigger).1
            (some e) drift cs
          = tickPriceOf s.prices (tickEvents s.active_global_events trigger).1
              none drift cs :=
      fun cs hcs => tickPriceOf_local_no_match _ _ _ e cs (hno cs hcs)
    refine ⟨?_, ?_, rfl⟩
    · rw [market_tick_prices, market_tick_prices]
      exact tickNewPrices_congr _ _ _ _ _ _ hpt
    · rw [market_tick_history, market_tick_history]
      exact tickNewHistory_congr _ _ _ _ _ _ _ hpt

/-- Concrete local event for the C8 check: it matches nothing in a
one-stock catalog without tags. -/
def sampleLocalEvent : LocalEvent :=
  { content := "flash news", affected_codes := ["OTHER"],
    affected_tags := ["oil"], direct_impact_percent := 1 / 10 }

/-- Concrete check for C8: replacing the content changes nothing in the
committed state, and an unmatched local event leaves the prices as a tick
without one. -/
theorem C8_local_event_no_persistent_trace_witness :
    market_tick [("TEST", { name := "t", industry := "tech", tags := [],
                            initial_price := some 100 })]
          { prices := [("TEST", 100)], active_global_events := [],
            price_history := [("TEST", [100])] }
          none (some { sampleLocalEvent with content := "edited" }) (fun _ => 0)
        = market_tick [("TEST", { name := "t", industry := "tech", tags := [],
                                  initial_price := some 100 })]
            { prices := [("TEST", 100)], active_global_events := [],
              price_history := [("TEST", [100])] }
            none (some sampleLocalEvent) (fun _ => 0)
    ∧ (market_tick [("TEST", { name := "t", industry := "tech", tags := [],
                               initial_price := some 100 })]
          { prices := [("TEST", 100)], active_global_events := [],
            price_history := [("TEST", [100])] }
          none (some sampleLocalEvent) (fun _ => 0)).1.prices
        = (market_tick [("TEST", { name := "t", industry := "tech", tags := [],
                                   initial_price := some 100 })]
            { prices := [("TEST", 100)], active_global_events := [],
              price_history := [("TEST", [100])] }
            none none (fun _ => 0)).1.prices :=
  ⟨(C8_local_event_no_persistent_trace
      [("TEST", { name := "t", industry := "tech", tags := [],
                  initial_price := some 100 })]
      { prices := [("TEST", 100)], active_global_events := [],
        price_history := [("TEST", [100])] }
      none (some sampleLocalEvent) (fun _ => 0) "edited").2.1 sampleLocalEvent rfl,
   ((C8_local_event_no_persistent_trace
      [("TEST", { name := "t", industry := "tech", tags := [],
                  initial_price := some 100 })]
      { prices := [("TEST", 100)], active_global_events := [],
        price_history := [("TEST", [100])] }
      none (some sampleLocalEvent) (fun _ => 0) "edited").2.2.1 sampleLocalEvent rfl
      (by decide)).1⟩

/-- C7 counterexample: with a portfolio that already holds 5 shares of the
code, buying 10 and selling 10 back at the unchanged price restores the
cash but does NOT remove the holdings entry — the original 5 shares
remain — so the claim's universally quantified "removes the holdings
entry entirely" is false. -/
theorem C7_counterexample :
    (buy [("QLAI", 100)] { cash := 10000, stocks := [("QLAI", 5)] } "QLAI" 10).2
        = .ok (9000, 100)
    ∧ (sell [("QLAI", 100)]
          (buy [("QLAI", 100)] { cash := 10000, stocks := [("QLAI", 5)] }
            "QLAI" 10).1 "QLAI" 10).2
        = .ok (10000, 100)
    ∧ assocLookup
          (sell [("QLAI", 100)]
            (buy [("QLAI", 100)] { cash := 10000, stocks := [("QLAI", 5)] }
              "QLAI" 10).1 "QLAI" 10).1.stocks "QLAI"
        = some 5 := by
  refine ⟨?_, ?_, ?_⟩ <;>
    norm_num [buy, sell, getHolding, assocLookup, assocSet, assocErase]

/-- C7 (amended): for every portfolio with non-negative holdings of the
code, every priced code and every affordable positive quantity, buying and
then immediately selling the same quantity at the unchanged price restores
the original cash exactly (reported by both trades), leaves every other
holding untouched, and removes the holdings entry exactly when no shares
of the code were held before the buy; when shares were already held, the
entry keeps the original count instead. -/
theorem C7_roundtrip_cash_neutral (prices : List (String × ℚ))
    (portfolio : Portfolio) (code : String) (amount : Int) (price : ℚ)
    (hq : 0 < amount) (hpr : assocLookup prices code = some price)
    (haff : price * (amount : ℚ) ≤ portfolio.cash)
    (hh : 0 ≤ getHolding portfolio code)
    (hnd : (portfolio.stocks.map Prod.fst).Nodup) :
    (buy prices portfolio code amount).2
        = .ok (portfolio.cash - price * (amount : ℚ), price)
    ∧ (sell prices (buy prices portfolio code amount).1 code amount).2
        = .ok (portfolio.cash, price)
    ∧ (sell prices (buy prices portfolio code amount).1 code amount).1.cash
        = portfolio.cash
    ∧ (getHolding portfolio code = 0 →
        assocLookup
            (sell prices (buy prices portfolio code amount).1 code amount).1.stocks
            code
          = none)
    ∧ (0 < getHolding portfolio code →
        assocLookup
            (sell prices (buy prices portfolio code amount).1 code amount).1.stocks
            code
          = some (getHolding portfolio code))
    ∧ ∀ c, c ≠ code →
        assocLookup
            (sell prices (buy prices portfolio code amount).1 code amount).1.stocks
            c
          = assocLookup portfolio.stocks c := by
  have hq' : ¬ amount ≤ 0 := not_le.mpr hq
  have hbuy : buy prices portfolio code amount
      = ({ cash := portfolio.cash - price * (amount : ℚ),
           stocks := assocSet portfolio.stocks code
                       (getHolding portfolio code + amount) },
         .ok (portfolio.cash - price * (amount : ℚ), price)) := by
    simp [buy, hq', hpr, not_lt.mpr haff]
  have hbuy1 : (buy prices portfolio code amount).1
      = { cash := portfolio.cash - price * (amount : ℚ),
          stocks := assocSet portfolio.stocks code
                      (getHolding portfolio code + amount) } := by
    rw [hbuy]
  have hheld : getHolding
      ({ cash := portfolio.cash - price * (amount : ℚ),
         stocks := assocSet portfolio.stocks code
                     (getHolding portfolio code + amount) } : Portfolio) code
      = getHolding portfolio code + amount := by
    simp [getHolding, assocLookup_set_self]
  have hlt : ¬ getHolding portfolio code + amount < amount := by omega
  have hsub : getHolding portfolio code + amount - amount
      = getHolding portfolio code := by omega
  have hkey : sell prices
      ({ cash := portfolio.cash - price * (amount : ℚ),
         stocks := assocSet portfolio.stocks code
                     (getHolding portfolio code + amount) } : Portfolio)
      code amount
      = ({ cash := portfolio.cash,
           stocks :=
             if getHolding portfolio code = 0 then
               assocErase
                 (assocSet
                   (assocSet portfolio.stocks code
                     (getHolding portfolio code + amount))
                   code (getHolding portfolio code)) code
             else
               assocSet
                 (assocSet portfolio.stocks code
                   (getHolding portfolio code + amount))
                 code (getHolding portfolio code) },
         .ok (portfolio.cash, price)) := by
    simp [sell, hq', hpr, hheld, hlt, hsub, sub_add_cancel]
  refine ⟨by rw [hbuy], ?_, ?_, ?_, ?_, ?_⟩
  · rw [hbuy1, hkey]
  · rw [hbuy1, hkey]
  · intro h0eq
    rw [hbuy1, hkey]
    show assocLookup (if getHolding portfolio code = 0 then _ else _) code = none
    rw [if_pos h0eq]
    exact assocLookup_erase_self _ _
      (nodup_keys_assocSet _ _ _ (nodup_keys_assocSet _ _ _ hnd))
  · intro h0pos
    have h0ne : ¬ getHolding portfolio code = 0 := by omega
    rw [hbuy1, hkey]
    show assocLookup (if getHolding portfolio code = 0 then _ else _) code
        = some (getHolding portfolio code)
    rw [if_neg h0ne]
    exact assocLookup_set_self _ _ _
  · intro c hc
    rw [hbuy1, hkey]
    show assocLookup (if getHolding portfolio code = 0 then _ else _) c
        = assocLookup portfolio.stocks c
    by_cases h0eq : getHolding portfolio code = 0
    · rw [if_pos h0eq, assocLookup_erase_ne _ _ _ hc,
        assocLookup_set_ne _ _ _ _ hc, assocLookup_set_ne _ _ _ _ hc]
    · rw [if_neg h0eq, assocLookup_set_ne _ _ _ _ hc,
        assocLookup_set_ne _ _ _ _ hc]

/-- Concrete check for C7 in the spec's scenario: starting cash 10000,
price 100, quantity 10, nothing held before — the intermediate state is
cash 9000 with 10 shares, and the round trip restores cash 10000 and
removes the entry. -/
theorem C7_roundtrip_cash_neutral_witness :
    (buy [("QLAI", 100)] { cash := 10000, stocks := [] } "QLAI" 10).1.cash = 9000
    ∧ getHolding (buy [("QLAI", 100)] { cash := 10000, stocks := [] }
        "QLAI" 10).1 "QLAI" = 10
    ∧ (sell [("QLAI", 100)]
          (buy [("QLAI", 100)] { cash := 10000, stocks := [] } "QLAI" 10).1
          "QLAI" 10).1.cash
        = Portfolio.cash { cash := 10000, stocks := [] }
    ∧ assocLookup
          (sell [("QLAI", 100)]
            (buy [("QLAI", 100)] { cash := 10000, stocks := [] } "QLAI" 10).1
            "QLAI" 10).1.stocks "QLAI"
        = none :=
  ⟨by norm_num [buy, getHolding, assocLookup, assocSet],
   by norm_num [buy, getHolding, assocLookup, assocSet],
   (C7_roundtrip_cash_neutral [("QLAI", 100)] { cash := 10000, stocks := [] }
      "QLAI" 10 100 (by norm_num) (by norm_num [assocLookup]) (by norm_num)
      (by norm_num [getHolding, assocLookup]) (by simp)).2.2.1,
   (C7_roundtrip_cash_neutral [("QLAI", 100)] { cash := 10000, stocks := [] }
      "QLAI" 10 100 (by norm_num) (by norm_num [assocLookup]) (by norm_num)
      (by norm_num [getHolding, assocLookup]) (by simp)).2.2.2.1
     (by norm_num [getHolding, assocLookup])⟩

end StockGame
